import Mathlib

/-!
# go-cryptomus: webhook signing and verification

A shallow embedding of `sign.go` and `webhook.go`.

* Go `string` values are modelled by `String` (Unicode text; `[]byte(s)` is its
  UTF-8 encoding), Go `[]byte` by `List Byte` with `Byte = Fin 256`.
* Go pointers to strings (`*string`) are `Option String`.
* `verify` mutates its receiver; it is modelled by state passing and returns the
  record after the call together with the error.
* The standard-library functions the code calls (`base64.StdEncoding`,
  `md5.Sum`, `hex.EncodeToString`, `json.Marshal`, `strings.Replacer`) are
  modelled by executable definitions following their documented behaviour.
* The decoder `json.Unmarshal`, the method `c.fetch` and the decoder of the HTTP
  response are parameters of the functions that call them.
-/

namespace GoCryptomus

/-! ## Bytes and strings -/

/-- A Go `byte`. -/
abbrev Byte := Fin 256

/-- A Go `[]byte`. -/
abbrev Bytes := List Byte

/-- Truncating conversion of a natural number to a byte (Go `byte(x)`). -/
def toByte (n : Nat) : Byte := ⟨n % 256, Nat.mod_lt n (by decide)⟩

/-- UTF-8 encoding of one code point. -/
def utf8EncodeChar (c : Char) : Bytes :=
  let v := c.toNat
  if v < 0x80 then [toByte v]
  else if v < 0x800 then [toByte (0xC0 ||| (v >>> 6)), toByte (0x80 ||| (v &&& 0x3F))]
  else if v < 0x10000 then
    [toByte (0xE0 ||| (v >>> 12)), toByte (0x80 ||| ((v >>> 6) &&& 0x3F)),
     toByte (0x80 ||| (v &&& 0x3F))]
  else
    [toByte (0xF0 ||| (v >>> 18)), toByte (0x80 ||| ((v >>> 12) &&& 0x3F)),
     toByte (0x80 ||| ((v >>> 6) &&& 0x3F)), toByte (0x80 ||| (v &&& 0x3F))]

/-- Go `[]byte(s)`: the UTF-8 bytes of a string. -/
def stringBytes (s : String) : Bytes := s.data.flatMap utf8EncodeChar

/-! ## `encoding/base64`: `StdEncoding.EncodeToString` -/

/-- The alphabet of `base64.StdEncoding`. -/
def encodeStd : List Char :=
  "ABCDEFGHIJKLMNOPQRSTUVWXYZabcdefghijklmnopqrstuvwxyz0123456789+/".data

/-- Table lookup `enc.encode[i]`. -/
def encodeStdAt (i : Nat) : Char := encodeStd.getD i '='

/-- The padding character of `base64.StdEncoding`. -/
def stdPadding : Char := '='

/-- The encoding loop of `(*Encoding).Encode`: full 3-byte groups give four
characters; a final group of one or two bytes is padded with `=`. -/
def base64Encode : Bytes → List Char
  | a :: b :: c :: rest =>
    let val := (a.val <<< 16) ||| (b.val <<< 8) ||| c.val
    encodeStdAt ((val >>> 18) &&& 0x3F) :: encodeStdAt ((val >>> 12) &&& 0x3F) ::
      encodeStdAt ((val >>> 6) &&& 0x3F) :: encodeStdAt (val &&& 0x3F) :: base64Encode rest
  | [a, b] =>
    let val := (a.val <<< 16) ||| (b.val <<< 8)
    [encodeStdAt ((val >>> 18) &&& 0x3F), encodeStdAt ((val >>> 12) &&& 0x3F),
     encodeStdAt ((val >>> 6) &&& 0x3F), stdPadding]
  | [a] =>
    let val := a.val <<< 16
    [encodeStdAt ((val >>> 18) &&& 0x3F), encodeStdAt ((val >>> 12) &&& 0x3F),
     stdPadding, stdPadding]
  | [] => []

/-- Go `base64.StdEncoding.EncodeToString`. -/
def base64EncodeToString (src : Bytes) : String := ⟨base64Encode src⟩

/-! ## `encoding/hex`: `EncodeToString` -/

/-- The digit table of `encoding/hex`. -/
def hextable : List Char := "0123456789abcdef".data

/-- Table lookup `hextable[i]`. -/
def hextableAt (i : Nat) : Char := hextable.getD i '0'

/-- The loop of `hex.Encode`: two digits per byte, high nibble first. -/
def hexEncode : Bytes → List Char
  | [] => []
  | v :: rest => hextableAt (v.val >>> 4) :: hextableAt (v.val &&& 0x0f) :: hexEncode rest

/-- Go `hex.EncodeToString`. -/
def hexEncodeToString (src : Bytes) : String := ⟨hexEncode src⟩

/-! ## `crypto/md5`: `Sum` (RFC 1321) -/

/-- Per-round left-rotation amounts. -/
def md5Shifts : List Nat :=
  [7, 12, 17, 22, 7, 12, 17, 22, 7, 12, 17, 22, 7, 12, 17, 22,
   5, 9, 14, 20, 5, 9, 14, 20, 5, 9, 14, 20, 5, 9, 14, 20,
   4, 11, 16, 23, 4, 11, 16, 23, 4, 11, 16, 23, 4, 11, 16, 23,
   6, 10, 15, 21, 6, 10, 15, 21, 6, 10, 15, 21, 6, 10, 15, 21]

/-- The sine-derived additive constants. -/
def md5Consts : List Nat :=
  [0xd76aa478, 0xe8c7b756, 0x242070db, 0xc1bdceee, 0xf57c0faf, 0x4787c62a, 0xa8304613, 0xfd469501,
   0x698098d8, 0x8b44f7af, 0xffff5bb1, 0x895cd7be, 0x6b901122, 0xfd987193, 0xa679438e, 0x49b40821,
   0xf61e2562, 0xc040b340, 0x265e5a51, 0xe9b6c7aa, 0xd62f105d, 0x02441453, 0xd8a1e681, 0xe7d3fbc8,
   0x21e1cde6, 0xc33707d6, 0xf4d50d87, 0x455a14ed, 0xa9e3e905, 0xfcefa3f8, 0x676f02d9, 0x8d2a4c8a,
   0xfffa3942, 0x8771f681, 0x6d9d6122, 0xfde5380c, 0xa4beea44, 0x4bdecfa9, 0xf6bb4b60, 0xbebfbc70,
   0x289b7ec6, 0xeaa127fa, 0xd4ef3085, 0x04881d05, 0xd9d4d039, 0xe6db99e5, 0x1fa27cf8, 0xc4ac5665,
   0xf4292244, 0x432aff97, 0xab9423a7, 0xfc93a039, 0x655b59c3, 0x8f0ccc92, 0xffeff47d, 0x85845dd1,
   0x6fa87e4f, 0xfe2ce6e0, 0xa3014314, 0x4e0811a1, 0xf7537e82, 0xbd3af235, 0x2ad7d2bb, 0xeb86d391]

/-- The four 32-bit chaining words. -/
structure Md5State where
  a : Nat
  b : Nat
  c : Nat
  d : Nat
deriving DecidableEq, Repr

/-- The initial chaining value. -/
def md5Init : Md5State := ⟨0x67452301, 0xefcdab89, 0x98badcfe, 0x10325476⟩

/-- Rotate a 32-bit word left. -/
def rotl32 (x s : Nat) : Nat := ((x <<< s) ||| (x >>> (32 - s))) % 2 ^ 32

/-- Bitwise complement of a 32-bit word. -/
def not32 (x : Nat) : Nat := x ^^^ 0xffffffff

/-- One of the 64 operations of the compression function on message words `m`. -/
def md5Step (m : List Nat) (st : Md5State) (i : Nat) : Md5State :=
  let f :=
    if i < 16 then (st.b &&& st.c) ||| (not32 st.b &&& st.d)
    else if i < 32 then (st.d &&& st.b) ||| (not32 st.d &&& st.c)
    else if i < 48 then st.b ^^^ st.c ^^^ st.d
    else st.c ^^^ (st.b ||| not32 st.d)
  let g :=
    if i < 16 then i
    else if i < 32 then (5 * i + 1) % 16
    else if i < 48 then (3 * i + 5) % 16
    else (7 * i) % 16
  let t := (st.a + f + md5Consts.getD i 0 + m.getD g 0) % 2 ^ 32
  ⟨st.d, (st.b + rotl32 t (md5Shifts.getD i 0)) % 2 ^ 32, st.b, st.c⟩

/-- Little-endian 32-bit words of a byte sequence (four bytes per word). -/
def leWords : List Nat → List Nat
  | b0 :: b1 :: b2 :: b3 :: rest =>
    (b0 ||| (b1 <<< 8) ||| (b2 <<< 16) ||| (b3 <<< 24)) :: leWords rest
  | _ => []

/-- Compress one 64-byte block into the chaining value. -/
def md5Block (st : Md5State) (block : List Nat) : Md5State :=
  let r := (List.range 64).foldl (md5Step (leWords block)) st
  ⟨(st.a + r.a) % 2 ^ 32, (st.b + r.b) % 2 ^ 32, (st.c + r.c) % 2 ^ 32, (st.d + r.d) % 2 ^ 32⟩

/-- Message padding: a `0x80` byte, zeros up to 56 modulo 64, then the bit
length as a 64-bit little-endian integer. -/
def md5Pad (msg : List Nat) : List Nat :=
  let n := msg.length
  let bits := (8 * n) % 2 ^ 64
  msg ++ 0x80 :: List.replicate ((119 - n % 64) % 64) 0 ++
    (List.range 8).map (fun k => (bits >>> (8 * k)) % 256)

/-- Fold the compression function over the first `n` 64-byte blocks. -/
def md5Blocks : Nat → Md5State → List Nat → Md5State
  | 0, st, _ => st
  | n + 1, st, msg => md5Blocks n (md5Block st (msg.take 64)) (msg.drop 64)

/-- Little-endian bytes of a 32-bit word. -/
def leBytes32 (x : Nat) : Bytes :=
  [toByte x, toByte (x >>> 8), toByte (x >>> 16), toByte (x >>> 24)]

/-- Go `md5.Sum`: the 16-byte digest of a message. -/
def md5Sum (data : Bytes) : Bytes :=
  let padded := md5Pad (data.map Fin.val)
  let st := md5Blocks (padded.length / 64) md5Init padded
  leBytes32 st.a ++ leBytes32 st.b ++ leBytes32 st.c ++ leBytes32 st.d

/-! ## `sign.go` -/

/-- The function `signRequest` of `sign.go`. -/
def signRequest (apiKey : String) (reqBody : Bytes) : String :=
  let data := base64EncodeToString reqBody
  let hash := md5Sum (stringBytes (data ++ apiKey))
  hexEncodeToString hash


/-! ## `encoding/json`: `Marshal` on the record types of `webhook.go` -/

/-- Errors as values. `ErrInvalidSign` and `ErrMissingSign` are the two package
variables of `webhook.go`; `new` is a value made by `errors.New`, `errorf` one
made by `fmt.Errorf`, and `lib` an error reported by a library or by the
transport (JSON decoding, HTTP). -/
inductive Error where
  | ErrInvalidSign
  | ErrMissingSign
  | new (text : String)
  | errorf (text : String)
  | lib (text : String)
deriving DecidableEq, Repr

deriving instance DecidableEq for Except

/-- The text of an error (`err.Error()`). -/
def Error.text : Error → String
  | .ErrInvalidSign => "invalid signature"
  | .ErrMissingSign => "missing signature"
  | .new t => t
  | .errorf t => t
  | .lib t => t

/-- The record type `WebhookConvert`. -/
structure WebhookConvert where
  ToCurrency : String
  Commission : String
  Rate : String
  Amount : String
deriving DecidableEq, Repr

/-- The record type `Webhook`. The field `Type` of the source is `Type_` here. -/
structure Webhook where
  Type_ : String
  UUID : String
  OrderId : String
  Amount : String
  PaymentAmount : Option String
  PaymentAmountUSD : String
  MerchantAmount : Option String
  Commission : Option String
  IsFinal : Bool
  Status : String
  From : Option String
  WalletAddressUUID : Option String
  Network : Option String
  Currency : String
  PayerCurrency : Option String
  PayerAmount : Option String
  PayerAmountExchangeRate : Option String
  AdditionalData : Option String
  Convert : Option WebhookConvert
  TransferId : Option String
  TxId : Option String
  Sign : Option String
deriving DecidableEq, Repr

/-- The four-digit escape `\u00XY` of a byte-sized code point. -/
def jsonEscapeU00 (v : Nat) : List Char :=
  ['\\', 'u', '0', '0', hextableAt (v >>> 4), hextableAt (v &&& 0xF)]

/-- How the string encoder of `encoding/json` writes one code point with HTML
escaping on, as `json.Marshal` has it: quote and backslash get a backslash,
the control characters with a short form use it (backspace and form feed have
one since Go 1.22), other control characters and `<`, `>`, `&` are written
`\u00XY`, and U+2028, U+2029 are written `\u202X`. -/
def jsonEscapeChar (c : Char) : List Char :=
  if c = '\\' ∨ c = '"' then ['\\', c]
  else if c = '\x08' then ['\\', 'b']
  else if c = '\x0c' then ['\\', 'f']
  else if c = '\n' then ['\\', 'n']
  else if c = '\r' then ['\\', 'r']
  else if c = '\t' then ['\\', 't']
  else if c.toNat < 0x20 ∨ c = '<' ∨ c = '>' ∨ c = '&' then jsonEscapeU00 c.toNat
  else if c = '\u2028' ∨ c = '\u2029' then
    ['\\', 'u', '2', '0', '2', hextableAt (c.toNat &&& 0xF)]
  else [c]

/-- A JSON string literal. -/
def jsonString (s : String) : List Char :=
  '"' :: s.data.flatMap jsonEscapeChar ++ ['"']

/-- A `*string` field: `null` when nil. -/
def jsonOptString : Option String → List Char
  | none => "null".data
  | some s => jsonString s

/-- A `bool` field. -/
def jsonBool (b : Bool) : List Char := if b then "true".data else "false".data

/-- One object member `"name":value`. -/
def jsonMember (name : String) (value : List Char) : List Char :=
  '"' :: name.data ++ '"' :: ':' :: value

/-- An object from its members, in order. -/
def jsonObject (members : List (List Char)) : List Char :=
  '\x7b' :: List.intercalate [','] members ++ ['\x7d']

/-- A `*string` field tagged `omitempty`: no member when nil. -/
def jsonOmitEmpty (name : String) : Option String → List (List Char)
  | none => []
  | some s => [jsonMember name (jsonString s)]

/-- The JSON text of a `WebhookConvert`. -/
def marshalWebhookConvert (c : WebhookConvert) : List Char :=
  jsonObject
    [jsonMember "to_currency" (jsonString c.ToCurrency),
     jsonMember "commission" (jsonString c.Commission),
     jsonMember "rate" (jsonString c.Rate),
     jsonMember "amount" (jsonString c.Amount)]

/-- The JSON text of a `Webhook`: the members in declaration order under their
`json` tags; `convert`, `txid` and `sign` are left out when nil. -/
def marshalWebhook (w : Webhook) : List Char :=
  jsonObject
    ([jsonMember "type" (jsonString w.Type_),
      jsonMember "uuid" (jsonString w.UUID),
      jsonMember "order_id" (jsonString w.OrderId),
      jsonMember "amount" (jsonString w.Amount),
      jsonMember "payment_amount" (jsonOptString w.PaymentAmount),
      jsonMember "payment_amount_usd" (jsonString w.PaymentAmountUSD),
      jsonMember "merchant_amount" (jsonOptString w.MerchantAmount),
      jsonMember "commission" (jsonOptString w.Commission),
      jsonMember "is_final" (jsonBool w.IsFinal),
      jsonMember "status" (jsonString w.Status),
      jsonMember "from" (jsonOptString w.From),
      jsonMember "wallet_address_uuid" (jsonOptString w.WalletAddressUUID),
      jsonMember "network" (jsonOptString w.Network),
      jsonMember "currency" (jsonString w.Currency),
      jsonMember "payer_currency" (jsonOptString w.PayerCurrency),
      jsonMember "payer_amount" (jsonOptString w.PayerAmount),
      jsonMember "payer_amount_exchange_rate" (jsonOptString w.PayerAmountExchangeRate),
      jsonMember "additional_data" (jsonOptString w.AdditionalData)]
     ++ (match w.Convert with
         | none => []
         | some c => [jsonMember "convert" (marshalWebhookConvert c)])
     ++ [jsonMember "transfer_id" (jsonOptString w.TransferId)]
     ++ jsonOmitEmpty "txid" w.TxId
     ++ jsonOmitEmpty "sign" w.Sign)

/-- Go `json.Marshal` on a `*Webhook`, with `string(encoded)` taken at once.
Every field is a string, a boolean or a pointer to one of these, so the
encoder has no failing case. -/
def jsonMarshal (w : Webhook) : Except Error String := .ok ⟨marshalWebhook w⟩

/-! ## `strings.Replacer` -/

/-- The replacer `strings.NewReplacer("/", "\\/")` applied to a string: every
`/` becomes the two characters backslash, slash. -/
def slashReplacer (s : String) : String :=
  ⟨s.data.flatMap (fun c => if c = '/' then ['\\', '/'] else [c])⟩

/-! ## `webhook.go` -/

/-- The method `(*Webhook).verify`. The receiver is mutated (`w.Sign = nil`), so
the record after the call is returned with the error. -/
def Webhook.verify (w : Webhook) (apiKey : String) : Webhook × Option Error :=
  match w.Sign with
  | none => (w, some Error.ErrMissingSign)
  | some webhookSign =>
    let w := { w with Sign := none }
    match jsonMarshal w with
    | .error err => (w, some (Error.errorf ("marshal webhook: " ++ err.text)))
    | .ok encoded =>
      let modStr := slashReplacer encoded
      let expectedSign := signRequest apiKey (stringBytes modStr)
      if webhookSign ≠ expectedSign then (w, some Error.ErrInvalidSign)
      else (w, none)

/-- Modelled from the spec: the client type `Cryptomus` is declared outside the
two source files; of its fields the webhook code reads the API key pair, one
secret for payment-type webhooks and one for payout-type webhooks. -/
structure Cryptomus where
  paymentApiKey : String
  payoutApiKey : String
deriving DecidableEq, Repr

/-- The method `(*Cryptomus).ParseWebhook`. The decoder `json.Unmarshal` into a
zero `Webhook` is the parameter `unmarshal`. The result is the Go pair
`(*Webhook, error)`. -/
def Cryptomus.ParseWebhook (unmarshal : Bytes → Except Error Webhook) (c : Cryptomus)
    (reqBody : Bytes) (verifySign : Bool) : Option Webhook × Option Error :=
  match unmarshal reqBody with
  | .error err => (none, some err)
  | .ok w =>
    if verifySign then
      let apiKey : Option String :=
        if w.Type_ = "payment" then some c.paymentApiKey
        else if w.Type_ = "payout" then some c.payoutApiKey
        else none
      match apiKey with
      | none => (none, some (Error.new "unknown webhook type"))
      | some apiKey =>
        match w.verify apiKey with
        | (_, some err) => (none, some err)
        | (w, none) => (some w, none)
    else (some w, none)

/-- The request type `ResendWebhookRequest`. -/
structure ResendWebhookRequest where
  PaymentUUID : String
  OrderId : String
deriving DecidableEq, Repr

/-- The response type `resendWebhookRawResponse` (`State` is an `int8`). -/
structure resendWebhookRawResponse where
  Result : List String
  State : Int
deriving DecidableEq, Repr

/-- The endpoint constant of `ResendWebhook`. -/
def resendWebhookEndpoint : String := "/payment/resend"

/-- The collaborators of the HTTP wrappers over a world state `σ`: the method
`c.fetch` (declared outside the two source files), closing the response body,
and `json.NewDecoder(res.Body).Decode` on the body that came back. -/
structure Transport (σ : Type) where
  fetch : String → String → ResendWebhookRequest → σ → Except Error Bytes × σ
  close : σ → σ
  decode : Bytes → Except Error resendWebhookRawResponse

/-- The method `(*Cryptomus).ResendWebhook`, threading the world state. The
result is the Go pair `(bool, error)` and the world after the call. -/
def Cryptomus.ResendWebhook {σ : Type} (t : Transport σ) (resendRequest : ResendWebhookRequest)
    (world : σ) : (Bool × Option Error) × σ :=
  if resendRequest.PaymentUUID = "" ∨ resendRequest.OrderId = "" then
    ((false, some (Error.new "you should pass one of required values [PaymentUUID, OrderId]")),
      world)
  else
    match t.fetch "POST" resendWebhookEndpoint resendRequest world with
    | (.error err, world) => ((false, some err), world)
    | (.ok body, world) =>
      match t.decode body with
      | .error err => ((false, some err), t.close world)
      | .ok response => ((decide (response.Result.length = 0), none), t.close world)

/-- A transport for running the wrappers: the world is the list of requests
sent so far, every `fetch` is recorded, and the reply is looked up in a fixed
table by the request. -/
def loggingTransport (replies : ResendWebhookRequest → Except Error Bytes)
    (decode : Bytes → Except Error resendWebhookRawResponse) :
    Transport (List (String × String × ResendWebhookRequest)) where
  fetch := fun method endpoint req log => (replies req, log ++ [(method, endpoint, req)])
  close := fun log => log
  decode := decode

/-- A decoder given by a finite table of bodies, for running `ParseWebhook`. -/
def tableUnmarshal (table : List (Bytes × Webhook)) (reqBody : Bytes) : Except Error Webhook :=
  match table.lookup reqBody with
  | some w => .ok w
  | none => .error (Error.lib "unexpected end of JSON input")

/-! ## The signature scheme in the words of the specification -/

/-- The character of a 6-bit value in the standard base64 alphabet: `A`–`Z`,
`a`–`z`, `0`–`9`, `+`, `/`. -/
def specBase64Digit (d : Nat) : Char :=
  if d < 26 then Char.ofNat (65 + d)
  else if d < 52 then Char.ofNat (97 + (d - 26))
  else if d < 62 then Char.ofNat (48 + (d - 52))
  else if d = 62 then '+'
  else '/'

/-- Standard padded base64: each 24-bit group of three bytes is written as
four 6-bit digits; a last group of two bytes (16 bits, extended by two zero
bits) as three digits and one `=`; a last single byte (8 bits, extended by
four zero bits) as two digits and `==`. -/
def specBase64 : Bytes → List Char
  | a :: b :: c :: rest =>
    let n := a.val * 65536 + b.val * 256 + c.val
    specBase64Digit (n / 262144) :: specBase64Digit (n / 4096 % 64) ::
      specBase64Digit (n / 64 % 64) :: specBase64Digit (n % 64) :: specBase64 rest
  | [a, b] =>
    let n := (a.val * 256 + b.val) * 4
    [specBase64Digit (n / 4096), specBase64Digit (n / 64 % 64), specBase64Digit (n % 64), '=']
  | [a] =>
    let n := a.val * 16
    [specBase64Digit (n / 64), specBase64Digit (n % 64), '=', '=']
  | [] => []

/-- The lowercase digit of a value below sixteen: `0`–`9`, `a`–`f`. -/
def specHexDigit (d : Nat) : Char :=
  if d < 10 then Char.ofNat (48 + d) else Char.ofNat (87 + d)

/-- Lowercase hexadecimal encoding: two digits per byte, most significant first. -/
def specHexLower (bs : Bytes) : List Char :=
  bs.flatMap fun b => [specHexDigit (b.val / 16), specHexDigit (b.val % 16)]

/-- The signature as the specification words it: the lowercase hex encoding of
the MD5 digest of the bytes of the base64 text of the payload, followed
immediately by the bytes of the key. -/
def specSignature (key : String) (payload : Bytes) : String :=
  ⟨specHexLower (md5Sum (stringBytes ⟨specBase64 payload⟩ ++ stringBytes key))⟩

/-- Canonicalization in the words of the specification: the record with its
signature field removed, serialized to JSON, then every `/` replaced by `\/`;
the result as bytes. -/
def canonicalize (w : Webhook) : Bytes :=
  stringBytes (slashReplacer ⟨marshalWebhook { w with Sign := none }⟩)

/-! ## The members of the JSON object -/

/-- The replacer of `verify` on a list of characters: `slashReplacer` is this
function on the characters of a string. -/
def escapeSlashes (l : List Char) : List Char :=
  l.flatMap (fun c => if c = '/' then ['\\', '/'] else [c])

/-- The members `json.Marshal` writes for a `Webhook`, in order, each as the
member name and the text of its value; `marshalWebhook` is the object made of
them (`marshalWebhook_members`). -/
def webhookMembers (w : Webhook) : List (String × List Char) :=
  [("type", jsonString w.Type_),
   ("uuid", jsonString w.UUID),
   ("order_id", jsonString w.OrderId),
   ("amount", jsonString w.Amount),
   ("payment_amount", jsonOptString w.PaymentAmount),
   ("payment_amount_usd", jsonString w.PaymentAmountUSD),
   ("merchant_amount", jsonOptString w.MerchantAmount),
   ("commission", jsonOptString w.Commission),
   ("is_final", jsonBool w.IsFinal),
   ("status", jsonString w.Status),
   ("from", jsonOptString w.From),
   ("wallet_address_uuid", jsonOptString w.WalletAddressUUID),
   ("network", jsonOptString w.Network),
   ("currency", jsonString w.Currency),
   ("payer_currency", jsonOptString w.PayerCurrency),
   ("payer_amount", jsonOptString w.PayerAmount),
   ("payer_amount_exchange_rate", jsonOptString w.PayerAmountExchangeRate),
   ("additional_data", jsonOptString w.AdditionalData)]
  ++ (match w.Convert with
      | none => []
      | some c => [("convert", marshalWebhookConvert c)])
  ++ [("transfer_id", jsonOptString w.TransferId)]
  ++ (match w.TxId with
      | none => []
      | some s => [("txid", jsonString s)])
  ++ (match w.Sign with
      | none => []
      | some s => [("sign", jsonString s)])

/-! ## Sample data -/

/-- A payment notification without a signature. -/
def samplePayment : Webhook where
  Type_ := "payment"
  UUID := "70b8db5c-b952-406d-af26-4e1c34c27f15"
  OrderId := "65bbe87b"
  Amount := "15.00"
  PaymentAmount := some "15.00"
  PaymentAmountUSD := "0.23"
  MerchantAmount := some "14.70"
  Commission := some "0.30"
  IsFinal := true
  Status := "paid"
  From := some "THgEWubVc8tPKXLJ4VZ5zbiiAK7AgqSeGH"
  WalletAddressUUID := none
  Network := some "tron"
  Currency := "TRX"
  PayerCurrency := some "TRX"
  PayerAmount := none
  PayerAmountExchangeRate := none
  AdditionalData := some "https://shop.example/order/1"
  Convert := none
  TransferId := none
  TxId := none
  Sign := none

/-- The payment notification carrying the signature made with the key
`pay-key`. -/
def signedPayment : Webhook :=
  { samplePayment with Sign := some "f6cad0ca2b55bc50e1e9d3453f12f01c" }

/-- The same notification with the last character of its signature changed. -/
def tamperedPayment : Webhook :=
  { samplePayment with Sign := some "f6cad0ca2b55bc50e1e9d3453f12f01d" }

/-- A notification of an unknown type whose signature is the one the key
`pay-key` gives for it. -/
def signedRefund : Webhook :=
  { samplePayment with Type_ := "refund", Sign := some "7160432b5b991494df21b05736f68437" }

/-- A notification of an unknown type without a signature. -/
def unsignedRefund : Webhook := { samplePayment with Type_ := "refund" }

/-- The request body of a record: its JSON text as bytes. -/
def bodyOf (w : Webhook) : Bytes := stringBytes ⟨marshalWebhook w⟩

/-- A decoder that knows the bodies of the sample records. -/
def sampleUnmarshal : Bytes → Except Error Webhook :=
  tableUnmarshal
    [(bodyOf samplePayment, samplePayment),
     (bodyOf signedPayment, signedPayment),
     (bodyOf tamperedPayment, tamperedPayment),
     (bodyOf signedRefund, signedRefund),
     (bodyOf unsignedRefund, unsignedRefund)]

/-- A client with two distinct keys. -/
def sampleClient : Cryptomus where
  paymentApiKey := "pay-key"
  payoutApiKey := "out-key"

/-! ## Lemmas on the encoders -/

theorem stringBytes_append (s t : String) :
    stringBytes (s ++ t) = stringBytes s ++ stringBytes t := by
  simp [stringBytes, String.data_append, List.flatMap_append]

theorem or_shift_bytes (a b c : Nat) (hb : b < 256) (hc : c < 256) :
    (a <<< 16) ||| (b <<< 8) ||| c = a * 65536 + b * 256 + c := by
  have h1 : 2 ^ 16 * a + 2 ^ 8 * b = 2 ^ 16 * a ||| 2 ^ 8 * b :=
    Nat.mul_add_lt_is_or (by omega) a
  have h2 : 2 ^ 8 * (2 ^ 8 * a + b) + c = 2 ^ 8 * (2 ^ 8 * a + b) ||| c :=
    Nat.mul_add_lt_is_or (by omega) _
  have h3 : 2 ^ 8 * (2 ^ 8 * a + b) = 2 ^ 16 * a + 2 ^ 8 * b := by ring
  rw [h3, h1] at h2
  rw [Nat.shiftLeft_eq, Nat.shiftLeft_eq, Nat.mul_comm a, Nat.mul_comm b, ← h2]
  omega

theorem or_shift_pair (a b : Nat) (hb : b < 256) :
    (a <<< 16) ||| (b <<< 8) = a * 65536 + b * 256 := by
  have h1 : 2 ^ 16 * a + 2 ^ 8 * b = 2 ^ 16 * a ||| 2 ^ 8 * b :=
    Nat.mul_add_lt_is_or (by omega) a
  rw [Nat.shiftLeft_eq, Nat.shiftLeft_eq, Nat.mul_comm a, Nat.mul_comm b, ← h1]

theorem and_63 (x : Nat) : x &&& 0x3F = x % 64 := Nat.and_pow_two_sub_one_eq_mod x 6

theorem and_15 (x : Nat) : x &&& 0x0f = x % 16 := Nat.and_pow_two_sub_one_eq_mod x 4

theorem encodeStdAt_eq_spec : ∀ i : Fin 64, encodeStdAt i.val = specBase64Digit i.val := by
  decide

theorem encodeStdAt_mod (x : Nat) : encodeStdAt (x % 64) = specBase64Digit (x % 64) :=
  encodeStdAt_eq_spec ⟨x % 64, Nat.mod_lt x (by decide)⟩

theorem hextableAt_eq_spec : ∀ i : Fin 16, hextableAt i.val = specHexDigit i.val := by
  decide

theorem hextableAt_mem : ∀ i : Fin 16, hextableAt i.val ∈ hextable := by
  decide

theorem base64Encode_eq_spec : ∀ src : Bytes, base64Encode src = specBase64 src
  | [] => rfl
  | [a] => by
    have ha := a.isLt
    simp only [base64Encode, specBase64, stdPadding, and_63, Nat.shiftRight_eq_div_pow,
      Nat.shiftLeft_eq, encodeStdAt_mod]
    have e1 : a.val * 2 ^ 16 / 2 ^ 18 % 64 = a.val * 16 / 64 := by omega
    have e2 : a.val * 2 ^ 16 / 2 ^ 12 % 64 = a.val * 16 % 64 := by omega
    rw [e1, e2]
  | [a, b] => by
    have ha := a.isLt
    have hb := b.isLt
    have hv := or_shift_pair a.val b.val hb
    simp only [base64Encode, specBase64, stdPadding, and_63, Nat.shiftRight_eq_div_pow, hv,
      encodeStdAt_mod]
    have e1 : (a.val * 65536 + b.val * 256) / 2 ^ 18 % 64 = (a.val * 256 + b.val) * 4 / 4096 := by
      omega
    have e2 : (a.val * 65536 + b.val * 256) / 2 ^ 12 % 64 = (a.val * 256 + b.val) * 4 / 64 % 64 := by
      omega
    have e3 : (a.val * 65536 + b.val * 256) / 2 ^ 6 % 64 = (a.val * 256 + b.val) * 4 % 64 := by
      omega
    rw [e1, e2, e3]
  | a :: b :: c :: rest => by
    have ha := a.isLt
    have hb := b.isLt
    have hc := c.isLt
    have hv := or_shift_bytes a.val b.val c.val hb hc
    simp only [base64Encode, specBase64, and_63, Nat.shiftRight_eq_div_pow, hv,
      encodeStdAt_mod, base64Encode_eq_spec rest]
    have e1 : (a.val * 65536 + b.val * 256 + c.val) / 2 ^ 18 % 64
        = (a.val * 65536 + b.val * 256 + c.val) / 262144 := by omega
    rw [e1]

theorem hexEncode_eq_spec : ∀ src : Bytes, hexEncode src = specHexLower src
  | [] => rfl
  | v :: rest => by
    have hv := v.isLt
    have h1 := hextableAt_eq_spec ⟨v.val / 16, by omega⟩
    have h2 := hextableAt_eq_spec ⟨v.val % 16, by omega⟩
    simp only [hexEncode, specHexLower, List.flatMap_cons, and_15, Nat.shiftRight_eq_div_pow,
      hexEncode_eq_spec rest] at h1 h2 ⊢
    simp [h1, h2, specHexLower]

theorem hexEncode_length : ∀ src : Bytes, (hexEncode src).length = 2 * src.length
  | [] => rfl
  | _ :: rest => by simp [hexEncode, hexEncode_length rest]; omega

theorem hexEncode_mem_hextable : ∀ (src : Bytes) (ch : Char), ch ∈ hexEncode src → ch ∈ hextable
  | [], _, h => by simp [hexEncode] at h
  | v :: rest, ch, h => by
    have hv := v.isLt
    simp only [hexEncode, List.mem_cons, and_15, Nat.shiftRight_eq_div_pow] at h
    rcases h with h | h | h
    · rw [h]; exact hextableAt_mem ⟨v.val / 2 ^ 4, by omega⟩
    · rw [h]; exact hextableAt_mem ⟨v.val % 16, by omega⟩
    · exact hexEncode_mem_hextable rest ch h

theorem md5Sum_length (data : Bytes) : (md5Sum data).length = 16 := by
  simp [md5Sum, leBytes32]

/-! ## The signer -/

/-- C7: for every key and payload, `signRequest` is the lowercase hexadecimal
encoding of the MD5 digest of the bytes of the standard padded base64 text of
the payload followed immediately by the bytes of the key (key as suffix, no
separator). -/
theorem signRequest_eq_specSignature (apiKey : String) (reqBody : Bytes) :
    signRequest apiKey reqBody = specSignature apiKey reqBody := by
  simp only [signRequest, specSignature, hexEncodeToString, base64EncodeToString,
    stringBytes_append, hexEncode_eq_spec, base64Encode_eq_spec]

set_option maxRecDepth 1000000 in
theorem signRequest_abc :
    signRequest "abc" (stringBytes "\x7b\"type\":\"payment\",\"amount\":\"1\"\x7d")
      = "f11a2915381b47c5f6826b2e1188f379" := by
  decide

set_option maxRecDepth 1000000 in
theorem signRequest_empty : signRequest "" [] = "d41d8cd98f00b204e9800998ecf8427e" := by
  decide

/-- C8: for every key and payload, the empty ones included, `signRequest` gives
a string of exactly 32 characters, each one of `0`–`9`, `a`–`f`; two calls on
the same key and payload give the same string (the function reads nothing but
its two arguments). On key `abc` and payload `{"type":"payment","amount":"1"}`
the string is `f11a2915381b47c5f6826b2e1188f379`, and on the empty key and
payload it is the digest of the empty message. -/
theorem signRequest_32_hex_chars (apiKey : String) (reqBody : Bytes) :
    (signRequest apiKey reqBody).length = 32 ∧
    (∀ ch ∈ (signRequest apiKey reqBody).data, ch ∈ "0123456789abcdef".data) ∧
    (∀ r₁ r₂ : String, r₁ = signRequest apiKey reqBody → r₂ = signRequest apiKey reqBody →
      r₁ = r₂) ∧
    signRequest "abc" (stringBytes "\x7b\"type\":\"payment\",\"amount\":\"1\"\x7d")
      = "f11a2915381b47c5f6826b2e1188f379" ∧
    signRequest "" [] = "d41d8cd98f00b204e9800998ecf8427e" := by
  refine ⟨?_, ?_, ?_, ?_, ?_⟩
  · simp [signRequest, hexEncodeToString, String.length, hexEncode_length, md5Sum_length]
  · intro ch h
    exact hexEncode_mem_hextable _ ch h
  · intro r₁ r₂ h₁ h₂
    rw [h₁, h₂]
  · exact signRequest_abc
  · exact signRequest_empty

/-! ## Webhook verification -/

theorem verify_of_sign (apiKey : String) (w : Webhook) (s : String) (hs : w.Sign = some s) :
    w.verify apiKey =
      ({ w with Sign := none },
        if s ≠ signRequest apiKey (canonicalize w) then some Error.ErrInvalidSign else none) := by
  unfold Webhook.verify
  simp only [hs, jsonMarshal, canonicalize]
  split <;> rfl

theorem verify_of_no_sign (apiKey : String) (w : Webhook) (hs : w.Sign = none) :
    w.verify apiKey = (w, some Error.ErrMissingSign) := by
  unfold Webhook.verify
  simp only [hs]

theorem canonicalize_sign (w : Webhook) (s : Option String) :
    canonicalize { w with Sign := s } = canonicalize w := rfl

/-- C1: sign/verify round trip. For every key and every record whose embedded
signature is `signRequest` of the key and the record's canonical form (the
record without its signature, as JSON, with every `/` written `\/`), `verify`
returns no error. -/
theorem verify_accepts_own_signature (apiKey : String) (w : Webhook)
    (h : w.Sign = some (signRequest apiKey (canonicalize w))) :
    (w.verify apiKey).2 = none := by
  rw [verify_of_sign apiKey w _ h]
  simp

set_option maxRecDepth 1000000 in
theorem signedPayment_sign :
    signedPayment.Sign = some (signRequest "pay-key" (canonicalize signedPayment)) := by
  decide

/-- The round trip on the sample payment notification, with the signature
written out. -/
theorem verify_accepts_own_signature_witness :
    signedPayment.Sign = some (signRequest "pay-key" (canonicalize signedPayment)) ∧
    (signedPayment.verify "pay-key").2 = none :=
  ⟨signedPayment_sign, verify_accepts_own_signature "pay-key" signedPayment signedPayment_sign⟩

/-- C2: for every key and every record whose embedded signature is present and
is not exactly the signature recomputed from the record's canonical form and
the key, `verify` fails with `ErrInvalidSign`; in particular, when a record
verifies, the record with any one character of its signature changed fails
with `ErrInvalidSign`. -/
theorem verify_rejects_other_signature (apiKey : String) (w : Webhook) (s : String)
    (hs : w.Sign = some s) :
    (s ≠ signRequest apiKey (canonicalize w) →
      (w.verify apiKey).2 = some Error.ErrInvalidSign) ∧
    ((w.verify apiKey).2 = none →
      ∀ (i : Nat) (ch : Char), i < s.data.length → s.data.get? i ≠ some ch →
        (Webhook.verify { w with Sign := some ⟨s.data.set i ch⟩ } apiKey).2
          = some Error.ErrInvalidSign) := by
  constructor
  · intro hne
    rw [verify_of_sign apiKey w s hs]
    simp [hne]
  · intro hok i ch hi hch
    rw [verify_of_sign apiKey w s hs] at hok
    have heq : s = signRequest apiKey (canonicalize w) := by
      by_contra hne
      simp [hne] at hok
    rw [verify_of_sign apiKey { w with Sign := some ⟨s.data.set i ch⟩ } ⟨s.data.set i ch⟩ rfl,
      canonicalize_sign, ← heq]
    have hne : (⟨s.data.set i ch⟩ : String) ≠ s := by
      intro hEq
      have hd : s.data.set i ch = s.data := congrArg String.data hEq
      have hg : (s.data.set i ch).get? i = some ch := by
        simp [List.getElem?_set]
        exact hi
      rw [hd] at hg
      exact hch hg
    simp [hne]

set_option maxRecDepth 1000000 in
theorem tamperedPayment_sign :
    "f6cad0ca2b55bc50e1e9d3453f12f01d" ≠ signRequest "pay-key" (canonicalize tamperedPayment) := by
  decide

/-- The sample notification verifies under `pay-key`; with the last character
of its signature changed from `c` to `d` it fails with `ErrInvalidSign`. -/
theorem verify_rejects_other_signature_witness :
    (signedPayment.verify "pay-key").2 = none ∧
    (tamperedPayment.verify "pay-key").2 = some Error.ErrInvalidSign ∧
    (Webhook.verify { signedPayment with
        Sign := some ⟨"f6cad0ca2b55bc50e1e9d3453f12f01c".data.set 31 'd'⟩ } "pay-key").2
      = some Error.ErrInvalidSign :=
  have hok : (signedPayment.verify "pay-key").2 = none := by
    rw [verify_of_sign "pay-key" signedPayment _ signedPayment_sign]
    simp
  ⟨hok,
   (verify_rejects_other_signature "pay-key" tamperedPayment
      "f6cad0ca2b55bc50e1e9d3453f12f01d" rfl).1 tamperedPayment_sign,
   (verify_rejects_other_signature "pay-key" signedPayment
      "f6cad0ca2b55bc50e1e9d3453f12f01c" rfl).2 hok 31 'd' (by decide) (by decide)⟩

/-! ## `ParseWebhook` -/

theorem ParseWebhook_payment (unmarshal : Bytes → Except Error Webhook) (c : Cryptomus)
    (reqBody : Bytes) (w : Webhook) (h : unmarshal reqBody = .ok w) (ht : w.Type_ = "payment") :
    c.ParseWebhook unmarshal reqBody true =
      (if (w.verify c.paymentApiKey).2 = none then some (w.verify c.paymentApiKey).1 else none,
        (w.verify c.paymentApiKey).2) := by
  unfold Cryptomus.ParseWebhook
  simp only [h, ht, if_true]
  rcases hv : w.verify c.paymentApiKey with ⟨w', _ | e⟩ <;> simp

theorem ParseWebhook_payout (unmarshal : Bytes → Except Error Webhook) (c : Cryptomus)
    (reqBody : Bytes) (w : Webhook) (h : unmarshal reqBody = .ok w) (ht : w.Type_ = "payout") :
    c.ParseWebhook unmarshal reqBody true =
      (if (w.verify c.payoutApiKey).2 = none then some (w.verify c.payoutApiKey).1 else none,
        (w.verify c.payoutApiKey).2) := by
  have hne : ¬ (w.Type_ = "payment") := by rw [ht]; decide
  unfold Cryptomus.ParseWebhook
  simp only [h, hne, if_true, if_false]
  simp only [ht, if_true]
  rcases hv : w.verify c.payoutApiKey with ⟨w', _ | e⟩ <;> simp

theorem ParseWebhook_other (unmarshal : Bytes → Except Error Webhook) (c : Cryptomus)
    (reqBody : Bytes) (w : Webhook) (h : unmarshal reqBody = .ok w)
    (h1 : w.Type_ ≠ "payment") (h2 : w.Type_ ≠ "payout") :
    c.ParseWebhook unmarshal reqBody true = (none, some (Error.new "unknown webhook type")) := by
  unfold Cryptomus.ParseWebhook
  simp only [h, h1, h2, if_true, if_false]

set_option maxRecDepth 1000000 in
theorem sampleUnmarshal_unsignedRefund :
    sampleUnmarshal (bodyOf unsignedRefund) = .ok unsignedRefund := by
  decide

/-- C3, as the claim states it, fails: a body that deserializes to a record
with no signature and the type `refund` makes `ParseWebhook` with verification
fail with the unknown-webhook-type error, not with `ErrMissingSign`. -/
theorem ParseWebhook_missing_sign_counterexample :
    sampleUnmarshal (bodyOf unsignedRefund) = .ok unsignedRefund ∧
    unsignedRefund.Sign = none ∧
    sampleClient.ParseWebhook sampleUnmarshal (bodyOf unsignedRefund) true
      = (none, some (Error.new "unknown webhook type")) ∧
    (sampleClient.ParseWebhook sampleUnmarshal (bodyOf unsignedRefund) true).2
      ≠ some Error.ErrMissingSign := by
  have h := sampleUnmarshal_unsignedRefund
  have hp := ParseWebhook_other sampleUnmarshal sampleClient _ _ h (by decide) (by decide)
  refine ⟨h, rfl, hp, ?_⟩
  rw [hp]
  decide

/-- C3, amended: for every body that deserializes to a record with no signature
field, `ParseWebhook` with verification requested fails with `ErrMissingSign`
when the record's type is `payment` or `payout`, whatever the other fields
are; when the type is any other value it fails with the unknown-webhook-type
error. No record is returned in either case. -/
theorem ParseWebhook_missing_sign (unmarshal : Bytes → Except Error Webhook) (c : Cryptomus)
    (reqBody : Bytes) (w : Webhook) (h : unmarshal reqBody = .ok w) (hs : w.Sign = none) :
    (w.Type_ = "payment" ∨ w.Type_ = "payout" →
      c.ParseWebhook unmarshal reqBody true = (none, some Error.ErrMissingSign)) ∧
    (w.Type_ ≠ "payment" → w.Type_ ≠ "payout" →
      c.ParseWebhook unmarshal reqBody true = (none, some (Error.new "unknown webhook type"))) := by
  constructor
  · rintro (ht | ht)
    · rw [ParseWebhook_payment unmarshal c reqBody w h ht, verify_of_no_sign _ w hs]
      simp
    · rw [ParseWebhook_payout unmarshal c reqBody w h ht, verify_of_no_sign _ w hs]
      simp
  · exact ParseWebhook_other unmarshal c reqBody w h

set_option maxRecDepth 1000000 in
theorem sampleUnmarshal_samplePayment :
    sampleUnmarshal (bodyOf samplePayment) = .ok samplePayment := by
  decide

/-- The unsigned sample payment notification is refused with `ErrMissingSign`. -/
theorem ParseWebhook_missing_sign_witness :
    sampleUnmarshal (bodyOf samplePayment) = .ok samplePayment ∧
    samplePayment.Sign = none ∧
    sampleClient.ParseWebhook sampleUnmarshal (bodyOf samplePayment) true
      = (none, some Error.ErrMissingSign) :=
  ⟨sampleUnmarshal_samplePayment, rfl,
   (ParseWebhook_missing_sign sampleUnmarshal sampleClient (bodyOf samplePayment) samplePayment
      sampleUnmarshal_samplePayment rfl).1 (Or.inl rfl)⟩

/-- C4: for every record whose type is neither `payment` nor `payout`,
`ParseWebhook` with verification requested fails with the unknown-webhook-type
error and returns no record; the result is the same for every embedded
signature and every pair of API keys, so no signature enters it. -/
theorem ParseWebhook_unknown_type (unmarshal : Bytes → Except Error Webhook) (c : Cryptomus)
    (reqBody : Bytes) (w : Webhook) (h : unmarshal reqBody = .ok w)
    (h1 : w.Type_ ≠ "payment") (h2 : w.Type_ ≠ "payout") :
    c.ParseWebhook unmarshal reqBody true = (none, some (Error.new "unknown webhook type")) ∧
    ∀ (c' : Cryptomus) (sign : Option String),
      c'.ParseWebhook (fun _ => .ok { w with Sign := sign }) reqBody true
        = c.ParseWebhook unmarshal reqBody true := by
  have hp := ParseWebhook_other unmarshal c reqBody w h h1 h2
  refine ⟨hp, ?_⟩
  intro c' sign
  rw [hp]
  exact ParseWebhook_other _ c' reqBody { w with Sign := sign } rfl h1 h2

set_option maxRecDepth 1000000 in
theorem sampleUnmarshal_signedRefund :
    sampleUnmarshal (bodyOf signedRefund) = .ok signedRefund := by
  decide

set_option maxRecDepth 1000000 in
theorem signedRefund_sign :
    signedRefund.Sign = some (signRequest "pay-key" (canonicalize signedRefund)) := by
  decide

/-- A notification of type `refund` whose signature is valid under the payment
key is still refused with the unknown-webhook-type error. -/
theorem ParseWebhook_unknown_type_witness :
    (signedRefund.verify sampleClient.paymentApiKey).2 = none ∧
    sampleClient.ParseWebhook sampleUnmarshal (bodyOf signedRefund) true
      = (none, some (Error.new "unknown webhook type")) :=
  ⟨by
    show (signedRefund.verify "pay-key").2 = none
    rw [verify_of_sign "pay-key" signedRefund _ signedRefund_sign]
    simp,
   (ParseWebhook_unknown_type sampleUnmarshal sampleClient (bodyOf signedRefund) signedRefund
      sampleUnmarshal_signedRefund (by decide) (by decide)).1⟩

/-- C10: key selection by discriminator. With verification requested, the
outcome of `ParseWebhook` on a record of type `payment` is the outcome of
`verify` under the payment API key (the verified record when there is no
error, no record otherwise, and the same error), and it is the same for every
payout key; symmetrically a record of type `payout` is checked under the
payout API key only. -/
theorem ParseWebhook_key_selection (unmarshal : Bytes → Except Error Webhook) (c : Cryptomus)
    (reqBody : Bytes) (w : Webhook) (h : unmarshal reqBody = .ok w) :
    (w.Type_ = "payment" →
      c.ParseWebhook unmarshal reqBody true =
        (if (w.verify c.paymentApiKey).2 = none then some (w.verify c.paymentApiKey).1 else none,
          (w.verify c.paymentApiKey).2) ∧
      ∀ other : String,
        Cryptomus.ParseWebhook unmarshal { c with payoutApiKey := other } reqBody true
          = c.ParseWebhook unmarshal reqBody true) ∧
    (w.Type_ = "payout" →
      c.ParseWebhook unmarshal reqBody true =
        (if (w.verify c.payoutApiKey).2 = none then some (w.verify c.payoutApiKey).1 else none,
          (w.verify c.payoutApiKey).2) ∧
      ∀ other : String,
        Cryptomus.ParseWebhook unmarshal { c with paymentApiKey := other } reqBody true
          = c.ParseWebhook unmarshal reqBody true) := by
  constructor
  · intro ht
    refine ⟨ParseWebhook_payment unmarshal c reqBody w h ht, ?_⟩
    intro other
    rw [ParseWebhook_payment unmarshal c reqBody w h ht,
      ParseWebhook_payment unmarshal { c with payoutApiKey := other } reqBody w h ht]
  · intro ht
    refine ⟨ParseWebhook_payout unmarshal c reqBody w h ht, ?_⟩
    intro other
    rw [ParseWebhook_payout unmarshal c reqBody w h ht,
      ParseWebhook_payout unmarshal { c with paymentApiKey := other } reqBody w h ht]

set_option maxRecDepth 1000000 in
theorem sampleUnmarshal_signedPayment :
    sampleUnmarshal (bodyOf signedPayment) = .ok signedPayment := by
  decide

theorem verify_signedPayment : signedPayment.verify "pay-key" = (samplePayment, none) := by
  rw [verify_of_sign "pay-key" signedPayment _ signedPayment_sign]
  simp only [ne_eq, not_true_eq_false, if_false]
  rfl

/-- The signed sample payment is accepted by the sample client, whose payment
key is `pay-key`, and the outcome is the same when the payout key is replaced. -/
theorem ParseWebhook_key_selection_witness :
    sampleUnmarshal (bodyOf signedPayment) = .ok signedPayment ∧
    sampleClient.ParseWebhook sampleUnmarshal (bodyOf signedPayment) true
      = (some samplePayment, none) ∧
    Cryptomus.ParseWebhook sampleUnmarshal ⟨"pay-key", "pay-key"⟩ (bodyOf signedPayment) true
      = sampleClient.ParseWebhook sampleUnmarshal (bodyOf signedPayment) true :=
  have hk := (ParseWebhook_key_selection sampleUnmarshal sampleClient (bodyOf signedPayment)
    signedPayment sampleUnmarshal_signedPayment).1 rfl
  ⟨sampleUnmarshal_signedPayment,
   by
    rw [hk.1]
    show (if (signedPayment.verify "pay-key").2 = none
      then some (signedPayment.verify "pay-key").1 else none,
      (signedPayment.verify "pay-key").2) = (some samplePayment, none)
    rw [verify_signedPayment]
    rfl,
   hk.2 "pay-key"⟩

/-! ## The slash replacer -/

theorem slashReplacer_length (s : String) :
    (slashReplacer s).data.length = s.data.length + s.data.count '/' := by
  unfold slashReplacer
  induction s.data with
  | nil => rfl
  | cons c l ih =>
    simp only [List.flatMap_cons, List.length_append, List.length_cons, List.count_cons, ih]
    by_cases hc : c = '/'
    · simp [hc]; omega
    · simp [hc]; omega

theorem slashReplacer_count (s : String) :
    (slashReplacer s).data.count '/' = s.data.count '/' := by
  unfold slashReplacer
  induction s.data with
  | nil => rfl
  | cons c l ih =>
    simp only [List.flatMap_cons, List.count_append, List.count_cons, ih]
    by_cases hc : c = '/'
    · simp [hc]; omega
    · have hc' : ¬ ('/' = c) := fun e => hc e.symm
      simp [hc, hc', List.count_cons]

theorem slashReplacer_of_no_slash (s : String) (h : '/' ∉ s.data) : slashReplacer s = s := by
  unfold slashReplacer
  have key : ∀ l : List Char, '/' ∉ l →
      l.flatMap (fun c => if c = '/' then ['\\', '/'] else [c]) = l := by
    intro l
    induction l with
    | nil => intro _; rfl
    | cons c l ih =>
      intro hl
      have hc : c ≠ '/' := fun e => hl (by simp [e])
      have hl' : '/' ∉ l := fun e => hl (List.mem_cons_of_mem _ e)
      simp [List.flatMap_cons, hc, ih hl']
  rw [key s.data h]

/-- C9, as the claim states it, fails: on the one-character string `/` the
transform gives `\/`, and on `\/` it gives `\\/`. -/
theorem slashReplacer_idempotent_counterexample :
    slashReplacer "/" = "\\/" ∧ slashReplacer (slashReplacer "/") = "\\\\/" ∧
    slashReplacer (slashReplacer "/") ≠ slashReplacer "/" := by
  decide

/-- C9, amended: re-running the slash-escape transform on its own output is a
no-op exactly for the strings that contain no `/` (on these the transform
itself changes nothing); on every string with a `/` the second run gives a
different, longer string. The transform replaces every `/`: its output is
longer than its input by the number of `/` in the input and has as many `/`
as the input, so the second run is longer than the first by exactly the
number of `/` in the original string. -/
theorem slashReplacer_idempotent_iff (s : String) :
    (slashReplacer (slashReplacer s) = slashReplacer s ↔ '/' ∉ s.data) ∧
    ('/' ∉ s.data → slashReplacer s = s) ∧
    ('/' ∈ s.data →
      (slashReplacer s).data.length < (slashReplacer (slashReplacer s)).data.length) ∧
    (slashReplacer s).data.length = s.data.length + s.data.count '/' ∧
    (slashReplacer s).data.count '/' = s.data.count '/' ∧
    (slashReplacer (slashReplacer s)).data.length
      = (slashReplacer s).data.length + s.data.count '/' ∧
    (slashReplacer (slashReplacer s)).data.length
      = s.data.length + 2 * s.data.count '/' := by
  have hlen2 : (slashReplacer (slashReplacer s)).data.length
      = (slashReplacer s).data.length + s.data.count '/' := by
    rw [slashReplacer_length (slashReplacer s), slashReplacer_count]
  have hlong : '/' ∈ s.data →
      (slashReplacer s).data.length < (slashReplacer (slashReplacer s)).data.length := by
    intro hm
    rw [hlen2]
    have := List.count_pos_iff.mpr hm
    omega
  refine ⟨⟨?_, ?_⟩, slashReplacer_of_no_slash s, hlong, slashReplacer_length s,
    slashReplacer_count s, hlen2, ?_⟩
  · intro heq hm
    have := hlong hm
    rw [heq] at this
    exact Nat.lt_irrefl _ this
  · intro hn
    rw [slashReplacer_of_no_slash s hn, slashReplacer_of_no_slash s hn]
  · rw [hlen2, slashReplacer_length s]
    omega

/-! ## `ResendWebhook` -/

/-- C5, the code at a request with one identifier: a request with a payment
UUID and no order id is refused with the validation error, for every
transport, and the world is left as it was (nothing is sent). The same holds
for a request with an order id and no payment UUID. -/
theorem ResendWebhook_rejects_single_identifier {σ : Type} (t : Transport σ) (world : σ) :
    Cryptomus.ResendWebhook t ⟨"70b8db5c-b952-406d-af26-4e1c34c27f15", ""⟩ world
      = ((false, some (Error.new
          "you should pass one of required values [PaymentUUID, OrderId]")), world) ∧
    Cryptomus.ResendWebhook t ⟨"", "65bbe87b"⟩ world
      = ((false, some (Error.new
          "you should pass one of required values [PaymentUUID, OrderId]")), world) := by
  constructor <;> rfl

/-- C6: for a resend request whose `PaymentUUID` and `OrderId` are both empty,
`ResendWebhook` returns `false` with the validation error and the world is
unchanged for every transport: `fetch` is not invoked. -/
theorem ResendWebhook_both_empty {σ : Type} (t : Transport σ) (req : ResendWebhookRequest)
    (world : σ) (h1 : req.PaymentUUID = "") (h2 : req.OrderId = "") :
    Cryptomus.ResendWebhook t req world
      = ((false, some (Error.new
          "you should pass one of required values [PaymentUUID, OrderId]")), world) := by
  unfold Cryptomus.ResendWebhook
  simp [h1, h2]

/-- With a transport that records every request it sends, the empty resend
request leaves the record of sent requests empty. -/
theorem ResendWebhook_both_empty_witness :
    Cryptomus.ResendWebhook
        (loggingTransport (fun _ => .ok []) (fun _ => .ok ⟨[], 0⟩)) ⟨"", ""⟩ []
      = ((false, some (Error.new
          "you should pass one of required values [PaymentUUID, OrderId]")), []) :=
  ResendWebhook_both_empty _ ⟨"", ""⟩ [] rfl rfl

/-! ## The record after `verify` and after `ParseWebhook` -/

theorem verify_record (apiKey : String) (w : Webhook) :
    (w.verify apiKey).1 = { w with Sign := none } := by
  cases hs : w.Sign with
  | none =>
    rw [verify_of_no_sign apiKey w hs]
    cases w
    simp only at hs
    simp [hs]
  | some s => rw [verify_of_sign apiKey w s hs]

theorem verify_ok_sign (apiKey : String) (w : Webhook) (h : (w.verify apiKey).2 = none) :
    w.Sign = some (signRequest apiKey (canonicalize w)) := by
  cases hs : w.Sign with
  | none =>
    rw [verify_of_no_sign apiKey w hs] at h
    simp at h
  | some s =>
    rw [verify_of_sign apiKey w s hs] at h
    by_cases hne : s = signRequest apiKey (canonicalize w)
    · rw [hne]
    · simp [hne] at h

theorem ParseWebhook_unmarshal_error (unmarshal : Bytes → Except Error Webhook) (c : Cryptomus)
    (reqBody : Bytes) (verifySign : Bool) (err : Error) (h : unmarshal reqBody = .error err) :
    c.ParseWebhook unmarshal reqBody verifySign = (none, some err) := by
  unfold Cryptomus.ParseWebhook
  simp only [h]

theorem ParseWebhook_no_verify (unmarshal : Bytes → Except Error Webhook) (c : Cryptomus)
    (reqBody : Bytes) (w : Webhook) (h : unmarshal reqBody = .ok w) :
    c.ParseWebhook unmarshal reqBody false = (some w, none) := by
  unfold Cryptomus.ParseWebhook
  simp [h]

/-- C11: when `ParseWebhook` with verification requested succeeds (returns no
error), the body deserialized to a record that carried a signature, and the
record returned is that record with its signature field nil and every other
field as deserialized. -/
theorem ParseWebhook_success_record (unmarshal : Bytes → Except Error Webhook) (c : Cryptomus)
    (reqBody : Bytes) (hok : (c.ParseWebhook unmarshal reqBody true).2 = none) :
    ∃ (w : Webhook) (s : String), unmarshal reqBody = .ok w ∧ w.Sign = some s ∧
      c.ParseWebhook unmarshal reqBody true = (some { w with Sign := none }, none) ∧
      ∀ r : Webhook, (c.ParseWebhook unmarshal reqBody true).1 = some r →
        r.Sign = none ∧ { r with Sign := w.Sign } = w := by
  cases hu : unmarshal reqBody with
  | error err =>
    rw [ParseWebhook_unmarshal_error unmarshal c reqBody true err hu] at hok
    simp at hok
  | ok w =>
    have key : ∀ k : String,
        c.ParseWebhook unmarshal reqBody true =
          (if (w.verify k).2 = none then some (w.verify k).1 else none, (w.verify k).2) →
        ∃ s : String, w.Sign = some s ∧
          c.ParseWebhook unmarshal reqBody true = (some { w with Sign := none }, none) := by
      intro k hk
      rw [hk] at hok
      have hv : (w.verify k).2 = none := hok
      refine ⟨_, verify_ok_sign k w hv, ?_⟩
      rw [hk, hv, verify_record]
      simp
    have main : ∃ s : String, w.Sign = some s ∧
        c.ParseWebhook unmarshal reqBody true = (some { w with Sign := none }, none) := by
      by_cases h1 : w.Type_ = "payment"
      · exact key _ (ParseWebhook_payment unmarshal c reqBody w hu h1)
      · by_cases h2 : w.Type_ = "payout"
        · exact key _ (ParseWebhook_payout unmarshal c reqBody w hu h2)
        · rw [ParseWebhook_other unmarshal c reqBody w hu h1 h2] at hok
          simp at hok
    obtain ⟨s, hs, hp⟩ := main
    refine ⟨w, s, rfl, hs, hp, ?_⟩
    intro r hr
    rw [hp] at hr
    simp only [Option.some.injEq] at hr
    subst hr
    exact ⟨rfl, rfl⟩

/-- The signed sample payment: the call succeeds and returns the notification
with the signature field nil and the other fields as in the body. -/
theorem ParseWebhook_success_record_witness :
    (sampleClient.ParseWebhook sampleUnmarshal (bodyOf signedPayment) true).2 = none ∧
    ∃ (w : Webhook) (s : String), sampleUnmarshal (bodyOf signedPayment) = .ok w ∧
      w.Sign = some s ∧
      sampleClient.ParseWebhook sampleUnmarshal (bodyOf signedPayment) true
        = (some { w with Sign := none }, none) ∧
      ∀ r : Webhook,
        (sampleClient.ParseWebhook sampleUnmarshal (bodyOf signedPayment) true).1 = some r →
        r.Sign = none ∧ { r with Sign := w.Sign } = w :=
  have hok : (sampleClient.ParseWebhook sampleUnmarshal (bodyOf signedPayment) true).2
      = none := by
    have hv : signedPayment.verify sampleClient.paymentApiKey = (samplePayment, none) :=
      verify_signedPayment
    rw [ParseWebhook_payment sampleUnmarshal sampleClient (bodyOf signedPayment) signedPayment
      sampleUnmarshal_signedPayment rfl, hv]
  ⟨hok, ParseWebhook_success_record sampleUnmarshal sampleClient (bodyOf signedPayment) hok⟩

/-- C13: with verification not requested, `ParseWebhook` returns the
deserialized record unchanged, its signature field as received, and no error,
for every body that deserializes, whatever the type and the signature are; so
it fails with none of the missing-signature, invalid-signature and
unknown-type errors. -/
theorem ParseWebhook_without_verification (unmarshal : Bytes → Except Error Webhook)
    (c : Cryptomus) (reqBody : Bytes) (w : Webhook) (h : unmarshal reqBody = .ok w) :
    c.ParseWebhook unmarshal reqBody false = (some w, none) ∧
    (c.ParseWebhook unmarshal reqBody false).2 ≠ some Error.ErrMissingSign ∧
    (c.ParseWebhook unmarshal reqBody false).2 ≠ some Error.ErrInvalidSign ∧
    (c.ParseWebhook unmarshal reqBody false).2 ≠ some (Error.new "unknown webhook type") := by
  rw [ParseWebhook_no_verify unmarshal c reqBody w h]
  simp

set_option maxRecDepth 1000000 in
theorem sampleUnmarshal_tamperedPayment :
    sampleUnmarshal (bodyOf tamperedPayment) = .ok tamperedPayment := by
  decide

/-- Without verification the notification with the wrong signature, the one
of unknown type with no signature and the unsigned payment all come back as
received. -/
theorem ParseWebhook_without_verification_witness :
    sampleClient.ParseWebhook sampleUnmarshal (bodyOf tamperedPayment) false
      = (some tamperedPayment, none) ∧
    sampleClient.ParseWebhook sampleUnmarshal (bodyOf unsignedRefund) false
      = (some unsignedRefund, none) ∧
    sampleClient.ParseWebhook sampleUnmarshal (bodyOf samplePayment) false
      = (some samplePayment, none) :=
  ⟨(ParseWebhook_without_verification sampleUnmarshal sampleClient _ tamperedPayment
      sampleUnmarshal_tamperedPayment).1,
   (ParseWebhook_without_verification sampleUnmarshal sampleClient _ unsignedRefund
      sampleUnmarshal_unsignedRefund).1,
   (ParseWebhook_without_verification sampleUnmarshal sampleClient _ samplePayment
      sampleUnmarshal_samplePayment).1⟩

/-- C15: after a call of `verify` on a record whose signature is present, the
record's signature field is nil whatever the outcome, which is no error or
`ErrInvalidSign` (on `ErrInvalidSign` the field is not put back), and all
other fields are unchanged; when the signature is absent, `verify` returns
`ErrMissingSign` and leaves the whole record unchanged. -/
theorem verify_leaves_sign_nil (apiKey : String) (w : Webhook) :
    (∀ s : String, w.Sign = some s →
      (w.verify apiKey).1 = { w with Sign := none } ∧
      (w.verify apiKey).1.Sign = none ∧
      ((w.verify apiKey).2 = none ∨ (w.verify apiKey).2 = some Error.ErrInvalidSign) ∧
      (s ≠ signRequest apiKey (canonicalize w) →
        w.verify apiKey = ({ w with Sign := none }, some Error.ErrInvalidSign))) ∧
    (w.Sign = none → w.verify apiKey = (w, some Error.ErrMissingSign)) := by
  constructor
  · intro s hs
    rw [verify_of_sign apiKey w s hs]
    refine ⟨rfl, rfl, ?_, ?_⟩
    · by_cases hne : s = signRequest apiKey (canonicalize w)
      · left; simp [hne]
      · right; simp [hne]
    · intro hne
      simp [hne]
  · exact verify_of_no_sign apiKey w

/-- The notification with the wrong signature comes out of `verify` with
`ErrInvalidSign` and without its signature; the unsigned one comes out as it
went in, with `ErrMissingSign`. -/
theorem verify_leaves_sign_nil_witness :
    tamperedPayment.Sign = some "f6cad0ca2b55bc50e1e9d3453f12f01d" ∧
    tamperedPayment.verify "pay-key" = (samplePayment, some Error.ErrInvalidSign) ∧
    samplePayment.verify "pay-key" = (samplePayment, some Error.ErrMissingSign) :=
  ⟨rfl,
   ((verify_leaves_sign_nil "pay-key" tamperedPayment).1 "f6cad0ca2b55bc50e1e9d3453f12f01d"
      rfl).2.2.2 tamperedPayment_sign,
   (verify_leaves_sign_nil "pay-key" samplePayment).2 rfl⟩

/-! ## The result of `ResendWebhook` -/

/-- C14: when validation passes (both identifiers are non-empty), the request
`POST /payment/resend` succeeds and the response decodes, `ResendWebhook`
returns no error and the boolean that is true exactly when the decoded result
list is empty and false when it has at least one element; the state code of
the response does not enter the result. -/
theorem ResendWebhook_result {σ : Type} (t : Transport σ) (req : ResendWebhookRequest)
    (world world' : σ) (body : Bytes) (response : resendWebhookRawResponse)
    (h1 : req.PaymentUUID ≠ "") (h2 : req.OrderId ≠ "")
    (hf : t.fetch "POST" "/payment/resend" req world = (.ok body, world'))
    (hd : t.decode body = .ok response) :
    Cryptomus.ResendWebhook t req world
      = ((decide (response.Result = []), none), t.close world') ∧
    ((Cryptomus.ResendWebhook t req world).1.1 = true ↔ response.Result = []) ∧
    (response.Result ≠ [] → (Cryptomus.ResendWebhook t req world).1.1 = false) ∧
    ∀ state : Int,
      Cryptomus.ResendWebhook
          { t with decode := fun b => (t.decode b).map fun r => { r with State := state } }
          req world
        = Cryptomus.ResendWebhook t req world := by
  have hmain : Cryptomus.ResendWebhook t req world
      = ((decide (response.Result = []), none), t.close world') := by
    unfold Cryptomus.ResendWebhook
    simp only [h1, h2, or_self, if_false, resendWebhookEndpoint, hf, hd]
    simp [List.length_eq_zero]
  refine ⟨hmain, ?_, ?_, ?_⟩
  · rw [hmain]
    simp
  · intro hne
    rw [hmain]
    simp [hne]
  · intro state
    rw [hmain]
    unfold Cryptomus.ResendWebhook
    simp only [h1, h2, or_self, if_false, resendWebhookEndpoint, hf, hd, Except.map]
    simp [List.length_eq_zero]

/-- With the recording transport: a reply with an empty result list gives
`true`, a reply with one element gives `false`, and in both runs exactly one
request, `POST /payment/resend`, was sent. -/
theorem ResendWebhook_result_witness :
    Cryptomus.ResendWebhook
        (loggingTransport (fun _ => .ok []) (fun _ => .ok ⟨[], 0⟩)) ⟨"70b8db5c", "65bbe87b"⟩ []
      = ((true, none), [("POST", "/payment/resend", ⟨"70b8db5c", "65bbe87b"⟩)]) ∧
    Cryptomus.ResendWebhook
        (loggingTransport (fun _ => .ok []) (fun _ => .ok ⟨["queued"], 0⟩))
        ⟨"70b8db5c", "65bbe87b"⟩ []
      = ((false, none), [("POST", "/payment/resend", ⟨"70b8db5c", "65bbe87b"⟩)]) :=
  ⟨(ResendWebhook_result (loggingTransport (fun _ => .ok []) (fun _ => .ok ⟨[], 0⟩))
      ⟨"70b8db5c", "65bbe87b"⟩ [] [("POST", "/payment/resend", ⟨"70b8db5c", "65bbe87b"⟩)]
      [] ⟨[], 0⟩ (by decide) (by decide) rfl rfl).1,
   (ResendWebhook_result (loggingTransport (fun _ => .ok []) (fun _ => .ok ⟨["queued"], 0⟩))
      ⟨"70b8db5c", "65bbe87b"⟩ [] [("POST", "/payment/resend", ⟨"70b8db5c", "65bbe87b"⟩)]
      [] ⟨["queued"], 0⟩ (by decide) (by decide) rfl rfl).1⟩

/-! ## The signed text as a JSON object -/

theorem marshalWebhook_members (w : Webhook) :
    marshalWebhook w = jsonObject ((webhookMembers w).map fun m => jsonMember m.1 m.2) := by
  unfold marshalWebhook webhookMembers
  cases w.Convert <;> cases w.TxId <;> cases w.Sign <;> rfl

theorem webhookMembers_sign (w : Webhook) (s : String) :
    webhookMembers { w with Sign := some s }
      = webhookMembers { w with Sign := none } ++ [("sign", jsonString s)] := by
  unfold webhookMembers
  simp

theorem webhookMembers_names (w : Webhook) :
    ∀ n ∈ (webhookMembers { w with Sign := none }).map Prod.fst,
      n ≠ "sign" ∧ '/' ∉ n.data := by
  cases w with
  | mk t u o a pa pu ma co f st fr wa ne cu pc pam pae ad cv tr tx sg =>
    cases cv <;> cases tx <;>
      (simp only [webhookMembers, List.map_append, List.map_cons, List.map_nil]; decide)

theorem escapeSlashes_append (k l : List Char) :
    escapeSlashes (k ++ l) = escapeSlashes k ++ escapeSlashes l := by
  simp [escapeSlashes, List.flatMap_append]

theorem escapeSlashes_of_no_slash : ∀ l : List Char, '/' ∉ l → escapeSlashes l = l
  | [], _ => rfl
  | c :: l, h => by
    have hc : c ≠ '/' := fun e => h (by simp [e])
    have hl : '/' ∉ l := fun e => h (List.mem_cons_of_mem _ e)
    have ih := escapeSlashes_of_no_slash l hl
    unfold escapeSlashes at ih ⊢
    simp [List.flatMap_cons, hc, ih]

theorem escapeSlashes_intercalate : ∀ ms : List (List Char),
    escapeSlashes (List.intercalate [','] ms) = List.intercalate [','] (ms.map escapeSlashes)
  | [] => rfl
  | [m] => by simp [List.intercalate, List.intersperse]
  | m :: m' :: ms => by
    have ih := escapeSlashes_intercalate (m' :: ms)
    simp only [List.intercalate, List.intersperse, List.map_cons] at ih ⊢
    simp only [List.flatten_cons, escapeSlashes_append, ih]
    rfl

theorem escapeSlashes_jsonMember (name : String) (value : List Char) (h : '/' ∉ name.data) :
    escapeSlashes (jsonMember name value) = jsonMember name (escapeSlashes value) := by
  unfold jsonMember
  have e : ('"' :: name.data ++ '"' :: ':' :: value)
      = ['"'] ++ name.data ++ ['"', ':'] ++ value := by simp
  rw [e, escapeSlashes_append, escapeSlashes_append, escapeSlashes_append,
    escapeSlashes_of_no_slash name.data h]
  simp [escapeSlashes]

theorem escapeSlashes_jsonObject (ms : List (List Char)) :
    escapeSlashes (jsonObject ms) = jsonObject (ms.map escapeSlashes) := by
  unfold jsonObject
  have e : ('\x7b' :: List.intercalate [','] ms ++ ['\x7d'])
      = ['\x7b'] ++ List.intercalate [','] ms ++ ['\x7d'] := by simp
  rw [e, escapeSlashes_append, escapeSlashes_append, escapeSlashes_intercalate]
  simp [escapeSlashes]

theorem canonicalize_members (w : Webhook) :
    canonicalize w = stringBytes ⟨jsonObject ((webhookMembers { w with Sign := none }).map
      fun m => jsonMember m.1 (escapeSlashes m.2))⟩ := by
  have hnames := webhookMembers_names w
  unfold canonicalize slashReplacer
  congr 2
  show escapeSlashes (marshalWebhook { w with Sign := none }) = _
  rw [marshalWebhook_members, escapeSlashes_jsonObject, List.map_map]
  congr 1
  apply List.map_congr_left
  intro m hm
  exact escapeSlashes_jsonMember m.1 m.2 (hnames m.1 (List.mem_map_of_mem Prod.fst hm)).2

theorem canonicalize_congr (w₁ w₂ : Webhook)
    (h : { w₁ with Sign := none } = { w₂ with Sign := none }) :
    canonicalize w₁ = canonicalize w₂ := by
  unfold canonicalize
  rw [h]

theorem verify_ok_iff (apiKey : String) (w : Webhook) (s : String) (hs : w.Sign = some s) :
    (w.verify apiKey).2 = none ↔ s = signRequest apiKey (canonicalize w) := by
  rw [verify_of_sign apiKey w s hs]
  by_cases hne : s = signRequest apiKey (canonicalize w)
  · simp [hne]
  · simp [hne]

/-- C12: the signature field is not part of the signed bytes. For every key
and any two records that differ only in the value of their (present)
signature field, the bytes `verify` signs and the expected signature are the
same, each record being accepted exactly when its own signature equals that
one expected signature. The signed text is the JSON object of the members of
the record with its signature cleared, slashes escaped in the values, and
none of these members is named `sign`; the record as received has exactly one
more member, `sign`. -/
theorem sign_not_in_signed_bytes (apiKey : String) (w₁ w₂ : Webhook) (s₁ s₂ : String)
    (h₁ : w₁.Sign = some s₁) (h₂ : w₂.Sign = some s₂)
    (hrest : { w₁ with Sign := none } = { w₂ with Sign := none }) :
    canonicalize w₁ = canonicalize w₂ ∧
    signRequest apiKey (canonicalize w₁) = signRequest apiKey (canonicalize w₂) ∧
    ((w₁.verify apiKey).2 = none ↔ s₁ = signRequest apiKey (canonicalize w₁)) ∧
    ((w₂.verify apiKey).2 = none ↔ s₂ = signRequest apiKey (canonicalize w₁)) ∧
    canonicalize w₁ = stringBytes ⟨jsonObject ((webhookMembers { w₁ with Sign := none }).map
      fun m => jsonMember m.1 (escapeSlashes m.2))⟩ ∧
    (∀ m ∈ webhookMembers { w₁ with Sign := none }, m.1 ≠ "sign") ∧
    webhookMembers w₁ = webhookMembers { w₁ with Sign := none } ++ [("sign", jsonString s₁)] := by
  have hc := canonicalize_congr w₁ w₂ hrest
  refine ⟨hc, by rw [hc], verify_ok_iff apiKey w₁ s₁ h₁, ?_, canonicalize_members w₁, ?_, ?_⟩
  · rw [hc]
    exact verify_ok_iff apiKey w₂ s₂ h₂
  · intro m hm
    exact (webhookMembers_names w₁ m.1 (List.mem_map_of_mem Prod.fst hm)).1
  · have e : w₁ = { w₁ with Sign := some s₁ } := by
      cases w₁
      simp only at h₁
      simp [h₁]
    rw [← webhookMembers_sign, ← e]

set_option maxRecDepth 1000000 in
theorem samplePayment_text :
    ¬ ("\"sign\"".data <:+: (slashReplacer ⟨marshalWebhook samplePayment⟩).data) ∧
    "\"sign\":\"f6cad0ca2b55bc50e1e9d3453f12f01c\"".data <:+: marshalWebhook signedPayment := by
  decide

/-- The signed sample payment and the one with the changed signature have the
same signed bytes; the signed text of the sample does not contain the text
`"sign"`, which the body as received does. -/
theorem sign_not_in_signed_bytes_witness :
    canonicalize signedPayment = canonicalize tamperedPayment ∧
    canonicalize signedPayment = stringBytes (slashReplacer ⟨marshalWebhook samplePayment⟩) ∧
    ¬ ("\"sign\"".data <:+: (slashReplacer ⟨marshalWebhook samplePayment⟩).data) ∧
    "\"sign\":\"f6cad0ca2b55bc50e1e9d3453f12f01c\"".data <:+: marshalWebhook signedPayment :=
  ⟨(sign_not_in_signed_bytes "pay-key" signedPayment tamperedPayment
      "f6cad0ca2b55bc50e1e9d3453f12f01c" "f6cad0ca2b55bc50e1e9d3453f12f01d" rfl rfl rfl).1,
   rfl, samplePayment_text.1, samplePayment_text.2⟩

end GoCryptomus
